import Mathlib

/-!
Verification of the znote offline-first sync core against its specification.

The definitions below are a shallow embedding of the TypeScript sources:

- `src/app/src/lib/sync/types.ts` — the shared data model (`SyncBlock`,
  `SyncTomorrowTask`, `SyncSettings`, `LocalBlock`, `LocalTomorrowTask`,
  `PushPayload`, `PushResponse`, `PullResponse`, `SyncStatus`);
- the web client storage layer (`getLocalBlocks`/`updateLocalBlock`/
  `deleteLocalBlock`/`markBlocksSynced`/`mergeServerBlocks`/
  `mergeServerTomorrowTasks` and the task analogues) — the mobile storage
  (`src/mobile/src/lib/sync/storage.ts`) is line-for-line the same algorithm;
- `src/app/src/lib/sync/engine.ts` — the sync engine (`saveBlock`, `sync`,
  `pushPendingChanges`, `getBlocks`, `getTomorrowTasks`, `emit`);
- the API client (`pushChanges` payload construction).

Timestamps are ISO-8601 strings in the source, compared through
`new Date(...).getTime()`; they are embedded as `Nat` (epoch milliseconds).
JavaScript `x ?? d` on a `T | null` field is embedded as `Option.getD`;
`x || d` on such fields likewise falls back on the null case. Mutation of
arrays in place is embedded as explicit list transformation; the local
key-value store is a field of an explicit state record.

The server push handler is not part of the sources available here (only its
README documentation and the client callers are), so it is modelled from the
specification where a claim needs it; those definitions are marked
`Modelled from the spec:`.
-/

namespace Znote

/-- Engine status, `SyncStatus` in `types.ts`. -/
inductive SyncStatus where
  | idle
  | syncing
  | error
  | offline
deriving DecidableEq, Repr

/-- Per-record lifecycle tag, the `syncStatus` field of local records. -/
inductive RecStatus where
  | synced
  | pending
  | conflict
deriving DecidableEq, Repr

/-- Wire shape of a block, `SyncBlock` in `types.ts`. -/
structure SyncBlock where
  id : String
  text : String
  createdAt : Nat
  calendarEventId : Option String
  position : Int
  version : Nat
  updatedAt : Nat
  deletedAt : Option Nat
  clientId : Option String
deriving DecidableEq, Repr

/-- Wire shape of a tomorrow task, `SyncTomorrowTask` in `types.ts`. -/
structure SyncTomorrowTask where
  id : String
  text : String
  time : Option String
  position : Int
  version : Nat
  updatedAt : Nat
  deletedAt : Option Nat
  clientId : Option String
deriving DecidableEq, Repr

/-- Theme values of the settings row. -/
inductive Theme where
  | system
  | light
  | dark
deriving DecidableEq, Repr

/-- Settings row, `SyncSettings` in `types.ts`. -/
structure SyncSettings where
  theme : Theme
  dayCutHour : Nat
  updatedAt : Nat
deriving DecidableEq, Repr

/-- Local block: the wire record plus the client-only lifecycle fields,
`LocalBlock extends SyncBlock` in `types.ts`. -/
structure LocalBlock extends SyncBlock where
  syncStatus : RecStatus
  serverVersion : Option Nat
  lastSyncedAt : Option Nat
deriving DecidableEq, Repr

/-- Local tomorrow task, `LocalTomorrowTask extends SyncTomorrowTask`. -/
structure LocalTomorrowTask extends SyncTomorrowTask where
  syncStatus : RecStatus
  serverVersion : Option Nat
  lastSyncedAt : Option Nat
deriving DecidableEq, Repr

/-! ## Storage layer (web `storage.ts`; the mobile `storage.ts` is identical) -/

/-- Branch of `mergeServerBlocks` for a server block with no local
counterpart, and for a synced local counterpart: the server copy is stored
as `synced` with `serverVersion := server.version` and a fresh
`lastSyncedAt`. -/
def serverToLocalBlock (s : SyncBlock) (now : Nat) : LocalBlock :=
  { toSyncBlock := s
    syncStatus := .synced
    serverVersion := some s.version
    lastSyncedAt := some now }

/-- Task analogue of `serverToLocalBlock`. -/
def serverToLocalTask (s : SyncTomorrowTask) (now : Nat) : LocalTomorrowTask :=
  { toSyncTomorrowTask := s
    syncStatus := .synced
    serverVersion := some s.version
    lastSyncedAt := some now }

/-- Body of the first loop of `mergeServerBlocks` (storage.ts): the entry
pushed onto `merged` for one server block. `local.serverVersion || 0`
becomes `Option.getD 0`. -/
def mergeOneBlock (locals : List LocalBlock) (now : Nat) (s : SyncBlock) : LocalBlock :=
  match locals.find? (fun b => b.id == s.id) with
  | none => serverToLocalBlock s now
  | some l =>
    if l.syncStatus = .pending then
      if l.serverVersion.getD 0 < s.version then
        { l with syncStatus := .conflict, serverVersion := some s.version }
      else l
    else serverToLocalBlock s now

/-- The merge algorithm `mergeServerBlocks` of storage.ts. The first loop
pushes exactly one entry per server block (a map); the second loop keeps
every local block whose id was not seen among the server blocks. The
result is written back to the store and returned. -/
def mergeServerBlocks (server : List SyncBlock) (locals : List LocalBlock) (now : Nat) :
    List LocalBlock :=
  server.map (mergeOneBlock locals now)
    ++ locals.filter (fun l => !(server.any (fun s => s.id == l.id)))

/-- Task analogue of `mergeOneBlock` (`mergeServerTomorrowTasks`). -/
def mergeOneTask (locals : List LocalTomorrowTask) (now : Nat) (s : SyncTomorrowTask) :
    LocalTomorrowTask :=
  match locals.find? (fun t => t.id == s.id) with
  | none => serverToLocalTask s now
  | some l =>
    if l.syncStatus = .pending then
      if l.serverVersion.getD 0 < s.version then
        { l with syncStatus := .conflict, serverVersion := some s.version }
      else l
    else serverToLocalTask s now

/-- The merge algorithm `mergeServerTomorrowTasks` of storage.ts. -/
def mergeServerTomorrowTasks (server : List SyncTomorrowTask)
    (locals : List LocalTomorrowTask) (now : Nat) : List LocalTomorrowTask :=
  server.map (mergeOneTask locals now)
    ++ locals.filter (fun l => !(server.any (fun s => s.id == l.id)))

/-! ## Accessors `getBlocks` / `getTomorrowTasks` (engine.ts lines 295-312) -/

/-- Order induced by the `getBlocks` comparator: `createdAt` ascending, ties
broken by `position` ascending. -/
def blockLe (a b : LocalBlock) : Prop :=
  a.createdAt < b.createdAt ∨ (a.createdAt = b.createdAt ∧ a.position ≤ b.position)

instance : DecidableRel blockLe := fun a b => by
  unfold blockLe
  exact inferInstance

instance : IsTotal LocalBlock blockLe := by
  constructor
  intro a b
  rcases Nat.lt_trichotomy a.createdAt b.createdAt with h | h | h
  · exact Or.inl (Or.inl h)
  · rcases le_total a.position b.position with hp | hp
    · exact Or.inl (Or.inr ⟨h, hp⟩)
    · exact Or.inr (Or.inr ⟨h.symm, hp⟩)
  · exact Or.inr (Or.inl h)

instance : IsTrans LocalBlock blockLe := by
  constructor
  intro a b c hab hbc
  rcases hab with h1 | ⟨h1, p1⟩
  · rcases hbc with h2 | ⟨h2, _⟩
    · exact Or.inl (h1.trans h2)
    · exact Or.inl (h2 ▸ h1)
  · rcases hbc with h2 | ⟨h2, p2⟩
    · exact Or.inl (h1 ▸ h2)
    · exact Or.inr ⟨h1.trans h2, p1.trans p2⟩

/-- Order induced by the `getTomorrowTasks` comparator: `position` ascending. -/
def taskLe (a b : LocalTomorrowTask) : Prop :=
  a.position ≤ b.position

instance : DecidableRel taskLe := fun a b => by
  unfold taskLe
  exact inferInstance

instance : IsTotal LocalTomorrowTask taskLe := by
  constructor
  intro a b
  exact le_total a.position b.position

instance : IsTrans LocalTomorrowTask taskLe := by
  constructor
  intro a b c hab hbc
  exact le_trans hab hbc

/-- `SyncEngine.getBlocks`: filter out tombstones (`!b.deletedAt`), then sort
by the two-key comparator. The JavaScript sort is embedded as a sort by the
order the comparator induces. -/
def getBlocks (blocks : List LocalBlock) : List LocalBlock :=
  List.insertionSort blockLe (blocks.filter (fun b => b.deletedAt.isNone))

/-- `SyncEngine.getTomorrowTasks`: filter out tombstones, sort by position. -/
def getTomorrowTasks (tasks : List LocalTomorrowTask) : List LocalTomorrowTask :=
  List.insertionSort taskLe (tasks.filter (fun t => t.deletedAt.isNone))

/-! ## Mutating storage operations -/

/-- `updateLocalBlock` (storage.ts): overwrite the first block with the same
id (`findIndex`), else append at the end (`push`). -/
def updateLocalBlock : List LocalBlock → LocalBlock → List LocalBlock
  | [], b => [b]
  | x :: xs, b => if x.id == b.id then b :: xs else x :: updateLocalBlock xs b

/-- `deleteLocalBlock` (storage.ts): find the first block with the id and set
`deletedAt := now`, `syncStatus := pending` on it; no-op when absent. -/
def deleteLocalBlock (id : String) (now : Nat) : List LocalBlock → List LocalBlock
  | [] => []
  | x :: xs =>
    if x.id == id then { x with deletedAt := some now, syncStatus := .pending } :: xs
    else x :: deleteLocalBlock id now xs

/-- `markBlocksSynced` (storage.ts): every block whose id is in `ids` becomes
`synced` with `lastSyncedAt := syncedAt` and `serverVersion := block.version`
(the local version, not a server-reported one). -/
def markBlocksSynced (ids : List String) (syncedAt : Nat) (blocks : List LocalBlock) :
    List LocalBlock :=
  blocks.map (fun b =>
    if ids.contains b.id then
      { b with syncStatus := .synced, lastSyncedAt := some syncedAt,
               serverVersion := some b.version }
    else b)

/-- `markTomorrowTasksSynced` (storage.ts). -/
def markTomorrowTasksSynced (ids : List String) (syncedAt : Nat)
    (tasks : List LocalTomorrowTask) : List LocalTomorrowTask :=
  tasks.map (fun t =>
    if ids.contains t.id then
      { t with syncStatus := .synced, lastSyncedAt := some syncedAt,
               serverVersion := some t.version }
    else t)

/-- `getPendingBlocks` (storage.ts). -/
def getPendingBlocks (blocks : List LocalBlock) : List LocalBlock :=
  blocks.filter (fun b => b.syncStatus == .pending)

/-- `getPendingTomorrowTasks` (storage.ts). -/
def getPendingTomorrowTasks (tasks : List LocalTomorrowTask) : List LocalTomorrowTask :=
  tasks.filter (fun t => t.syncStatus == .pending)

/-! ## SyncEngine.saveBlock (engine.ts lines 319-346) -/

/-- The `Partial<LocalBlock> & \x7b id; text \x7d` argument of `saveBlock`:
only these fields of the partial are read by `saveBlock`; an absent (or, for
the nullish-coalesced fields, null) optional field is `none`. -/
structure BlockPatch where
  id : String
  text : String
  createdAt : Option Nat := none
  calendarEventId : Option String := none
  position : Option Int := none
deriving DecidableEq, Repr

/-- The record `saveBlock` builds: the partial merged over the existing
record with that id, `version := (existing?.version || 0) + 1`,
`updatedAt := now`, `deletedAt := null`, `clientId` of this installation,
`syncStatus := pending`, carrying over `serverVersion`/`lastSyncedAt`. -/
def saveBlockRecord (blocks : List LocalBlock) (patch : BlockPatch) (now : Nat)
    (clientId : String) : LocalBlock :=
  let existing := blocks.find? (fun b => b.id == patch.id)
  { id := patch.id
    text := patch.text
    createdAt := patch.createdAt.getD ((existing.map (·.createdAt)).getD now)
    calendarEventId := (patch.calendarEventId.orElse
      (fun _ => existing.bind (·.calendarEventId)))
    position := patch.position.getD ((existing.map (·.position)).getD 0)
    version := (existing.map (·.version)).getD 0 + 1
    updatedAt := now
    deletedAt := none
    clientId := some clientId
    syncStatus := .pending
    serverVersion := existing.bind (·.serverVersion)
    lastSyncedAt := existing.bind (·.lastSyncedAt) }

/-- Events an engine operation emits, tagged by kind. -/
inductive EvTag where
  | statusChange (s : SyncStatus)
  | blocksUpdated
  | tasksUpdated
  | settingsUpdated
  | conflictDetected
  | errorEv
deriving DecidableEq, Repr

/-- Result of one `saveBlock` call: the returned record, the store written
through, the emitted events, and whether a debounced sync was scheduled. -/
structure SaveBlockResult where
  record : LocalBlock
  blocks : List LocalBlock
  events : List EvTag
  scheduledSync : Bool
deriving Repr

/-- `SyncEngine.saveBlock`: build the merged record, write it through with
`updateLocalBlock`, emit `blocks-updated`, and schedule a debounced sync
only when `this.isOnline && this.isLoggedIn()`. -/
def saveBlock (blocks : List LocalBlock) (patch : BlockPatch) (now : Nat)
    (clientId : String) (online loggedIn : Bool) : SaveBlockResult :=
  let updated := saveBlockRecord blocks patch now clientId
  { record := updated
    blocks := updateLocalBlock blocks updated
    events := [.blocksUpdated]
    scheduledSync := online && loggedIn }

/-! ## Event emission (engine.ts lines 46-54) -/

/-- Result of invoking one subscribed handler: `Except.ok` for a normal
return, `Except.error` for a thrown exception. -/
abbrev HandlerResult := Except String Unit

/-- A subscribed event handler, as a function of the event it receives. -/
abbrev Handler := EvTag → HandlerResult

/-- `SyncEngine.emit`: the loop calls every handler with the event; the
try/catch around each call logs a thrown exception and continues, so emit
never propagates a handler failure — its value is the list of per-handler
outcomes in subscription order. -/
def emit : List Handler → EvTag → List HandlerResult
  | [], _ => []
  | h :: rest, ev => h ev :: emit rest ev

/-- `SyncEngine.deleteBlock` together with its notification (engine.ts lines
349-356): the storage outcome is computed by `deleteLocalBlock` before the
emit and is unaffected by the handler outcomes. -/
def deleteBlockOp (handlers : List Handler) (blocks : List LocalBlock) (id : String)
    (now : Nat) : List LocalBlock × List HandlerResult :=
  (deleteLocalBlock id now blocks, emit handlers .blocksUpdated)

/-! ## Push payload construction (API client and engine.ts lines 261-292) -/

/-- Wire push payload, `PushPayload` in types.ts; a `none` field is absent
from the JSON body. -/
structure PushPayload where
  clientId : String
  blocks : Option (List SyncBlock)
  tomorrowTasks : Option (List SyncTomorrowTask)
  settings : Option SyncSettings
deriving DecidableEq, Repr

/-- `api.pushChanges`: the payload starts with only `clientId`; the blocks
and tomorrowTasks arrays are attached when supplied and non-empty; the
settings field is attached exactly when the argument was supplied. -/
def pushChanges (clientId : String) (blocks : Option (List SyncBlock))
    (tomorrowTasks : Option (List SyncTomorrowTask))
    (settings : Option SyncSettings) : PushPayload :=
  { clientId := clientId
    blocks := match blocks with
      | some bs => if bs.isEmpty then none else some bs
      | none => none
    tomorrowTasks := match tomorrowTasks with
      | some ts => if ts.isEmpty then none else some ts
      | none => none
    settings := settings }

/-- Request construction of `SyncEngine.pushPendingChanges`: no request at
all when nothing is pending; otherwise
`api.pushChanges(pendingBlocks?, pendingTasks?)` — the settings argument of
`pushChanges` is never passed by the engine (in both the web and the mobile
engine), so it is always absent. Local records go on the wire through their
`SyncBlock` part. -/
def pushPendingRequest (blocks : List LocalBlock) (tasks : List LocalTomorrowTask)
    (clientId : String) : Option PushPayload :=
  let pendingBlocks := getPendingBlocks blocks
  let pendingTasks := getPendingTomorrowTasks tasks
  if pendingBlocks.isEmpty && pendingTasks.isEmpty then none
  else some (pushChanges clientId
    (if pendingBlocks.isEmpty then none else some (pendingBlocks.map (·.toSyncBlock)))
    (if pendingTasks.isEmpty then none else some (pendingTasks.map (·.toSyncTomorrowTask)))
    none)

/-! ## Wire responses (types.ts) -/

/-- Kind tag of a push conflict report. -/
inductive ConflictKind where
  | block
  | tomorrowTask
deriving DecidableEq, Repr

/-- One entry of `PushResponse.conflicts` (the opaque `serverData` payload
is omitted from the embedding; no claim mentions it). -/
structure ConflictReport where
  kind : ConflictKind
  id : String
  localVersion : Nat
  serverVersion : Nat
deriving DecidableEq, Repr

/-- `PushResponse` in types.ts, with the `applied` object inlined. -/
structure PushResponse where
  success : Bool
  appliedBlocks : List String
  appliedTomorrowTasks : List String
  appliedSettings : Bool
  conflicts : List ConflictReport
deriving DecidableEq, Repr

/-- One entry of `PullResponse.conflicts`. -/
structure PullConflict where
  id : String
  blockId : String
  localText : String
  serverText : String
deriving DecidableEq, Repr

/-- `PullResponse` in types.ts. -/
structure PullResponse where
  blocks : List SyncBlock
  tomorrowTasks : List SyncTomorrowTask
  settings : Option SyncSettings
  conflicts : List PullConflict
  syncedAt : Nat
deriving DecidableEq, Repr

/-! ## One execution of SyncEngine.sync (engine.ts lines 154-206) -/

/-- The client-side state `sync` reads and writes. -/
structure ClientState where
  blocks : List LocalBlock
  tasks : List LocalTomorrowTask
  settings : Option SyncSettings
  lastSyncedAt : Option Nat
deriving DecidableEq, Repr

/-- Applied block ids reported by the push step ([] when it threw). -/
def appliedBlocksOf : Except Unit PushResponse → List String
  | .error _ => []
  | .ok r => r.appliedBlocks

/-- Applied task ids reported by the push step ([] when it threw). -/
def appliedTasksOf : Except Unit PushResponse → List String
  | .error _ => []
  | .ok r => r.appliedTomorrowTasks

/-- One execution of `SyncEngine.sync`, with the two network calls given as
outcomes (`Except.ok` response or `Except.error` for a thrown error). After
the signed-in and online guards the try block pushes pending changes
(`pushPendingChanges`, which skips the network call when nothing is pending,
marks applied records synced, and surfaces push conflicts), pulls, merges
the response, stores the cursor, and returns to idle; a throw in push or
pull lands in the catch, which sets status `error` and emits the `error`
event. `setStatus` emits `status-change` only on an actual change. -/
def syncRun (st : ClientState) (loggedIn online : Bool) (status0 : SyncStatus)
    (pushResult : Except Unit PushResponse) (pullResult : Except Unit PullResponse)
    (now : Nat) : ClientState × SyncStatus × List EvTag :=
  if !loggedIn then (st, status0, [])
  else if !online then
    (st, .offline, if status0 = .offline then [] else [.statusChange .offline])
  else
    let evs0 := if status0 = SyncStatus.syncing then [] else [EvTag.statusChange .syncing]
    let pendB := getPendingBlocks st.blocks
    let pendT := getPendingTomorrowTasks st.tasks
    let pushStep : Except Unit (ClientState × List EvTag) :=
      if pendB.isEmpty && pendT.isEmpty then .ok (st, [])
      else match pushResult with
        | .error _ => .error ()
        | .ok resp =>
          let blocks1 := if resp.appliedBlocks.isEmpty then st.blocks
            else markBlocksSynced resp.appliedBlocks now st.blocks
          let tasks1 := if resp.appliedTomorrowTasks.isEmpty then st.tasks
            else markTomorrowTasksSynced resp.appliedTomorrowTasks now st.tasks
          .ok ({ st with blocks := blocks1, tasks := tasks1 },
               if resp.conflicts.isEmpty then [] else [EvTag.conflictDetected])
    match pushStep with
    | .error _ => (st, .error, evs0 ++ [.statusChange .error, .errorEv])
    | .ok (st1, evs1) =>
      match pullResult with
      | .error _ => (st1, .error, evs0 ++ evs1 ++ [.statusChange .error, .errorEv])
      | .ok pr =>
        let blocks2 := if pr.blocks.isEmpty then st1.blocks
          else mergeServerBlocks pr.blocks st1.blocks now
        let evs2 : List EvTag := if pr.blocks.isEmpty then [] else [.blocksUpdated]
        let tasks2 := if pr.tomorrowTasks.isEmpty then st1.tasks
          else mergeServerTomorrowTasks pr.tomorrowTasks st1.tasks now
        let evs3 : List EvTag := if pr.tomorrowTasks.isEmpty then [] else [.tasksUpdated]
        let settings2 := match pr.settings with
          | some s => some s
          | none => st1.settings
        let evs4 : List EvTag := match pr.settings with
          | some _ => [.settingsUpdated]
          | none => []
        let evs5 : List EvTag := if pr.conflicts.isEmpty then [] else [.conflictDetected]
        ({ blocks := blocks2, tasks := tasks2, settings := settings2,
           lastSyncedAt := some pr.syncedAt },
         .idle,
         evs0 ++ evs1 ++ evs2 ++ evs3 ++ evs4 ++ evs5 ++ [.statusChange .idle])

/-! ## Trigger interleaving of sync runs (engine.ts lines 154-166, 435-461) -/

/-- Control view of one engine instance for trigger interleaving: the two
guard inputs `SyncEngine.sync` consults, the status field, and the number of
`sync()` executions started and not yet finished. Each execution suspends at
its network awaits, so a trigger can run the entry guards while earlier
executions are still in flight. -/
structure EngineCtl where
  loggedIn : Bool
  online : Bool
  status : SyncStatus
  inFlight : Nat
deriving DecidableEq, Repr

/-- Entry of `SyncEngine.sync` as fired by any trigger (debounce timer,
30-second tick, online transition, explicit call): the guards test only
`isLoggedIn` and `isOnline` — the engine holds no in-flight flag — and a
call that passes them sets status `syncing` and is henceforth in flight. -/
def syncEntry (e : EngineCtl) : EngineCtl :=
  if !e.loggedIn then e
  else if !e.online then { e with status := .offline }
  else { e with status := .syncing, inFlight := e.inFlight + 1 }

/-- Completion of an in-flight run (the tail of `sync()`). -/
def syncFinish (e : EngineCtl) : EngineCtl :=
  { e with status := .idle, inFlight := e.inFlight - 1 }

/-! ## Server push processing, modelled from the spec

The server route source is not under src/ (only its README documentation
and the client callers are), so the push handler is modelled from the
specification, section 4.2.1. -/

/-- Server-stored block row: the wire fields plus the owning user. -/
structure ServerBlock where
  id : String
  userId : String
  text : String
  createdAt : Nat
  calendarEventId : Option String
  position : Int
  version : Nat
  updatedAt : Nat
  deletedAt : Option Nat
  clientId : Option String
deriving DecidableEq, Repr

/-- Modelled from the spec: the row appended on a push conflict (spec 4.2.1
step 3): id `"{incoming.id}-conflict-{epoch_ms}"`, text `"[Conflict] "`
prepended to the incoming text, position incoming.position + 1, version 1,
createdAt from the incoming record, clientId := incoming.clientId. -/
def conflictRow (userId : String) (nowMs : Nat) (incoming : SyncBlock) : ServerBlock :=
  { id := incoming.id ++ "-conflict-" ++ toString nowMs
    userId := userId
    text := "[Conflict] " ++ incoming.text
    createdAt := incoming.createdAt
    calendarEventId := incoming.calendarEventId
    position := incoming.position + 1
    version := 1
    updatedAt := nowMs
    deletedAt := none
    clientId := incoming.clientId }

/-- Modelled from the spec: accept-path update of an existing row (spec
4.2.1 step 4): fields from incoming, server `version := incoming.version +
1`, `updatedAt` server-authoritative; `createdAt` is never mutated
(invariant 6). -/
def acceptUpdate (nowMs : Nat) (incoming : SyncBlock) (existing : ServerBlock) :
    ServerBlock :=
  { existing with
    text := incoming.text
    calendarEventId := incoming.calendarEventId
    position := incoming.position
    version := incoming.version + 1
    updatedAt := nowMs
    deletedAt := incoming.deletedAt
    clientId := incoming.clientId }

/-- Modelled from the spec: accept-path insert of a new row (spec 4.2.1
step 4): `version := 1`, `createdAt` from the incoming record. -/
def acceptInsert (userId : String) (nowMs : Nat) (incoming : SyncBlock) : ServerBlock :=
  { id := incoming.id
    userId := userId
    text := incoming.text
    createdAt := incoming.createdAt
    calendarEventId := incoming.calendarEventId
    position := incoming.position
    version := 1
    updatedAt := nowMs
    deletedAt := incoming.deletedAt
    clientId := incoming.clientId }

/-- State threaded through the per-record processing of a push batch. -/
structure PushState where
  store : List ServerBlock
  appliedBlocks : List String
  conflicts : List ConflictReport
deriving DecidableEq, Repr

/-- Modelled from the spec: per-record processing of POST /sync/push (spec
4.2.1 steps 1-4): fetch the existing row by id; skip silently when it
belongs to another user; a conflict arises iff `existing.version >=
incoming.version` and `existing.clientId != incoming.clientId`, in which
case the existing row is untouched and a conflict row plus report are
appended; otherwise accept (update or insert) and record the id as
applied. -/
def pushOneBlock (userId : String) (nowMs : Nat) (st : PushState) (incoming : SyncBlock) :
    PushState :=
  match st.store.find? (fun r => r.id == incoming.id) with
  | some existing =>
    if existing.userId ≠ userId then st
    else if incoming.version ≤ existing.version ∧ existing.clientId ≠ incoming.clientId then
      { st with
        store := st.store ++ [conflictRow userId nowMs incoming]
        conflicts := st.conflicts ++
          [{ kind := .block, id := incoming.id, localVersion := incoming.version,
             serverVersion := existing.version }] }
    else
      { st with
        store := st.store.map (fun r =>
          if r.id == incoming.id then acceptUpdate nowMs incoming r else r)
        appliedBlocks := st.appliedBlocks ++ [incoming.id] }
  | none =>
    { st with
      store := st.store ++ [acceptInsert userId nowMs incoming]
      appliedBlocks := st.appliedBlocks ++ [incoming.id] }

/-- Modelled from the spec: the block part of a push batch, processed record
by record inside one transaction. -/
def serverPushBlocks (userId : String) (nowMs : Nat) (store : List ServerBlock)
    (incoming : List SyncBlock) : PushState :=
  incoming.foldl (pushOneBlock userId nowMs)
    { store := store, appliedBlocks := [], conflicts := [] }

/-! ## The fresh-write scenario (spec section 8, scenario 1)

An empty client under clientId "c1" saves block b1 at time 10, pushes to an
empty server (user "u1", server time 20), marks the applied id synced, and
merges the pulled server copy back at time 25. The client steps are the
engine functions above; the server step is the spec-modelled push. -/

/-- Scenario step 1: `SaveBlock(\x7bid:"b1", text:"hello"\x7d)` on empty state. -/
def c4Save : SaveBlockResult :=
  saveBlock [] { id := "b1", text := "hello" } 10 "c1" true true

/-- Scenario step 2: the pending blocks are pushed; the server applies. -/
def c4Push : PushState :=
  serverPushBlocks "u1" 20 []
    ((getPendingBlocks c4Save.blocks).map (·.toSyncBlock))

/-- Scenario step 3: the applied ids are marked synced locally. -/
def c4Marked : List LocalBlock :=
  markBlocksSynced c4Push.appliedBlocks 20 c4Save.blocks

/-- Scenario step 4: the pull response carries the server rows (wire part). -/
def c4ServerWire : List SyncBlock :=
  c4Push.store.map (fun r =>
    { id := r.id, text := r.text, createdAt := r.createdAt,
      calendarEventId := r.calendarEventId, position := r.position,
      version := r.version, updatedAt := r.updatedAt, deletedAt := r.deletedAt,
      clientId := r.clientId })

/-- Scenario step 5: the pulled rows are merged into the local store. -/
def c4Final : List LocalBlock :=
  mergeServerBlocks c4ServerWire c4Marked 25

/-- A sample live local block used in concrete witnesses. -/
def sampleBlock : LocalBlock :=
  { id := "b1", text := "old", createdAt := 1, calendarEventId := none,
    position := 0, version := 2, updatedAt := 5, deletedAt := some 5,
    clientId := some "c1", syncStatus := .pending, serverVersion := some 1,
    lastSyncedAt := some 2 }

/-- The sample block with a cleared tombstone (a live record). -/
def sampleLive : LocalBlock :=
  { sampleBlock with deletedAt := none }

/-- Existing server row for the C1 witness: version 4, written by client A. -/
def c1Existing : ServerBlock :=
  { id := "b1", userId := "u1", text := "x", createdAt := 1, calendarEventId := none,
    position := 0, version := 4, updatedAt := 15, deletedAt := none,
    clientId := some "A" }

/-- Incoming record for the C1 witness: version 3 from client B. -/
def c1Incoming : SyncBlock :=
  { id := "b1", text := "B", createdAt := 1, calendarEventId := none,
    position := 0, version := 3, updatedAt := 16, deletedAt := none,
    clientId := some "B" }

/-- Pull response used by the C6 witness (its contents are never reached,
the push step throws first). -/
def emptyPull : PullResponse :=
  { blocks := [], tomorrowTasks := [], settings := none, conflicts := [], syncedAt := 0 }

/-! ## Theorems -/

/-- The record written by `updateLocalBlock` is in the resulting store. -/
theorem mem_updateLocalBlock (b : LocalBlock) :
    ∀ blocks : List LocalBlock, b ∈ updateLocalBlock blocks b := by
  intro blocks
  induction blocks with
  | nil => simp [updateLocalBlock]
  | cons x xs ih =>
    by_cases h : (x.id == b.id) = true
    · simp [updateLocalBlock, h]
    · simp only [updateLocalBlock, Bool.not_eq_true] at h ⊢
      rw [h]
      simp only [Bool.false_eq_true, if_false]
      exact List.mem_cons_of_mem _ ih

/-- A block whose id was not reported applied passes through
`markBlocksSynced` unchanged. -/
theorem mem_markBlocksSynced_of_not_applied {b : LocalBlock} {blocks : List LocalBlock}
    (ids : List String) (syncedAt : Nat) (hb : b ∈ blocks) (hid : b.id ∉ ids) :
    b ∈ markBlocksSynced ids syncedAt blocks := by
  have hmem := List.mem_map_of_mem (fun x : LocalBlock =>
    if ids.contains x.id then
      { x with syncStatus := RecStatus.synced, lastSyncedAt := some syncedAt,
               serverVersion := some x.version }
    else x) hb
  simpa [markBlocksSynced, hid] using hmem

/-- A task whose id was not reported applied passes through
`markTomorrowTasksSynced` unchanged. -/
theorem mem_markTomorrowTasksSynced_of_not_applied {t : LocalTomorrowTask}
    {tasks : List LocalTomorrowTask} (ids : List String) (syncedAt : Nat)
    (ht : t ∈ tasks) (hid : t.id ∉ ids) :
    t ∈ markTomorrowTasksSynced ids syncedAt tasks := by
  have hmem := List.mem_map_of_mem (fun x : LocalTomorrowTask =>
    if ids.contains x.id then
      { x with syncStatus := RecStatus.synced, lastSyncedAt := some syncedAt,
               serverVersion := some x.version }
    else x) ht
  simpa [markTomorrowTasksSynced, hid] using hmem

/-- Counterexample to C3: `sampleBlock` is tombstoned (`deletedAt = some 5`),
yet `saveBlock` with its id produces and stores a record with
`deletedAt = none` — the engine resurrects tombstoned records on save. -/
theorem C3_cex :
    (saveBlock [sampleBlock] { id := "b1", text := "x" } 6 "c1" true true).record.deletedAt
      = none
    ∧ (saveBlock [sampleBlock] { id := "b1", text := "x" } 6 "c1" true true).blocks
      = [{ id := "b1", text := "x", createdAt := 1, calendarEventId := none,
           position := 0, version := 3, updatedAt := 6, deletedAt := none,
           clientId := some "c1", syncStatus := .pending, serverVersion := some 1,
           lastSyncedAt := some 2 }] := by
  constructor
  · rfl
  · decide

/-- C3 amended: tombstones survive `deleteLocalBlock` and `markBlocksSynced`
(a record whose `deletedAt` is non-null keeps a non-null `deletedAt` under
them), but `saveBlock` unconditionally writes `deletedAt := null`, so saving
a tombstoned id resurrects the record. -/
theorem C3_tombstone_amended :
    (∀ (blocks : List LocalBlock) (id : String) (now : Nat) (b : LocalBlock),
        b ∈ blocks → b.deletedAt ≠ none →
        ∃ b' ∈ deleteLocalBlock id now blocks, b'.id = b.id ∧ b'.deletedAt ≠ none)
    ∧ (∀ (ids : List String) (syncedAt : Nat) (blocks : List LocalBlock)
          (b : LocalBlock), b ∈ blocks → b.deletedAt ≠ none →
        ∃ b' ∈ markBlocksSynced ids syncedAt blocks, b'.id = b.id ∧ b'.deletedAt ≠ none)
    ∧ (∀ (blocks : List LocalBlock) (patch : BlockPatch) (now : Nat) (cid : String),
        (saveBlockRecord blocks patch now cid).deletedAt = none) := by
  refine ⟨?_, ?_, ?_⟩
  · intro blocks id now b hb hdel
    induction blocks with
    | nil => cases hb
    | cons x xs ih =>
      by_cases hid : (x.id == id) = true
      · rcases List.mem_cons.mp hb with hbx | hbxs
        · subst hbx
          exact ⟨{ b with deletedAt := some now, syncStatus := .pending },
            by simp [deleteLocalBlock, hid], rfl, by simp⟩
        · exact ⟨b, by simp [deleteLocalBlock, hid, hbxs], rfl, hdel⟩
      · rcases List.mem_cons.mp hb with hbx | hbxs
        · subst hbx
          refine ⟨b, ?_, rfl, hdel⟩
          simp only [deleteLocalBlock, hid]
          simp
        · rcases ih hbxs with ⟨b', hb', hid', hdel'⟩
          refine ⟨b', ?_, hid', hdel'⟩
          simp only [deleteLocalBlock, hid]
          simp [hb']
  · intro ids syncedAt blocks b hb hdel
    have hmem := List.mem_map_of_mem (fun x : LocalBlock =>
      if ids.contains x.id then
        { x with syncStatus := RecStatus.synced, lastSyncedAt := some syncedAt,
                 serverVersion := some x.version }
      else x) hb
    refine ⟨if ids.contains b.id then
        { b with syncStatus := RecStatus.synced, lastSyncedAt := some syncedAt,
                 serverVersion := some b.version }
      else b, ?_, ?_, ?_⟩
    · simpa [markBlocksSynced] using hmem
    · split <;> rfl
    · split <;> simpa using hdel
  · intro blocks patch now cid
    rfl

/-- Witness for the amended C3: the tombstoned sample block keeps a non-null
`deletedAt` under `deleteLocalBlock` of another id. -/
theorem C3_tombstone_amended_witness :
    ∃ b' ∈ deleteLocalBlock "b2" 9 [sampleBlock],
      b'.id = sampleBlock.id ∧ b'.deletedAt ≠ none :=
  C3_tombstone_amended.1 [sampleBlock] "b2" 9 sampleBlock (by simp) (by decide)

/-- Counterexample to C5: for an offline client, `saveBlock` does not
schedule a debounced sync (the scheduling is guarded by
`this.isOnline && this.isLoggedIn()`), contradicting the unconditional
"a debounced sync is scheduled". -/
theorem C5_cex :
    (saveBlock [] { id := "b1", text := "hello" } 5 "c1" false true).scheduledSync
      = false := rfl

/-- C5 amended: `saveBlock` merges the partial over the existing record of
that id (if any), sets `version` to the existing version plus one (1 when no
record existed), `updatedAt := now`, the installation `clientId`,
`syncStatus := pending`, writes the record through to storage, emits
`blocks-updated` — and schedules a debounced sync exactly when the engine is
online and signed in. -/
theorem C5_saveBlock_amended (blocks : List LocalBlock) (patch : BlockPatch)
    (now : Nat) (cid : String) (online loggedIn : Bool) :
    (∀ e, blocks.find? (fun b => b.id == patch.id) = some e →
        (saveBlock blocks patch now cid online loggedIn).record.version = e.version + 1
        ∧ (patch.createdAt = none →
            (saveBlock blocks patch now cid online loggedIn).record.createdAt = e.createdAt)
        ∧ (patch.position = none →
            (saveBlock blocks patch now cid online loggedIn).record.position = e.position)
        ∧ (saveBlock blocks patch now cid online loggedIn).record.serverVersion
            = e.serverVersion)
    ∧ (blocks.find? (fun b => b.id == patch.id) = none →
        (saveBlock blocks patch now cid online loggedIn).record.version = 1
        ∧ (saveBlock blocks patch now cid online loggedIn).record.serverVersion = none
        ∧ (patch.createdAt = none →
            (saveBlock blocks patch now cid online loggedIn).record.createdAt = now))
    ∧ (saveBlock blocks patch now cid online loggedIn).record.id = patch.id
    ∧ (saveBlock blocks patch now cid online loggedIn).record.text = patch.text
    ∧ (∀ c, patch.createdAt = some c →
        (saveBlock blocks patch now cid online loggedIn).record.createdAt = c)
    ∧ (saveBlock blocks patch now cid online loggedIn).record.updatedAt = now
    ∧ (saveBlock blocks patch now cid online loggedIn).record.clientId = some cid
    ∧ (saveBlock blocks patch now cid online loggedIn).record.syncStatus = .pending
    ∧ (saveBlock blocks patch now cid online loggedIn).record
        ∈ (saveBlock blocks patch now cid online loggedIn).blocks
    ∧ (saveBlock blocks patch now cid online loggedIn).events = [.blocksUpdated]
    ∧ (saveBlock blocks patch now cid online loggedIn).scheduledSync
        = (online && loggedIn) := by
  refine ⟨?_, ?_, rfl, rfl, ?_, rfl, rfl, rfl, ?_, rfl, rfl⟩
  · intro e he
    refine ⟨?_, ?_, ?_, ?_⟩
    · simp [saveBlock, saveBlockRecord, he]
    · intro hc
      simp [saveBlock, saveBlockRecord, he, hc]
    · intro hp
      simp [saveBlock, saveBlockRecord, he, hp]
    · simp [saveBlock, saveBlockRecord, he]
  · intro hn
    refine ⟨?_, ?_, ?_⟩
    · simp [saveBlock, saveBlockRecord, hn]
    · simp [saveBlock, saveBlockRecord, hn]
    · intro hc
      simp [saveBlock, saveBlockRecord, hn, hc]
  · intro c hc
    simp [saveBlock, saveBlockRecord, hc]
  · simpa [saveBlock] using
      mem_updateLocalBlock (saveBlockRecord blocks patch now cid) blocks

/-- Witness for the amended C5: saving over the sample block increments its
version from 2 to 3. -/
theorem C5_saveBlock_amended_witness :
    (saveBlock [sampleBlock] { id := "b1", text := "y" } 6 "c" true true).record.version
      = sampleBlock.version + 1 :=
  ((C5_saveBlock_amended [sampleBlock] { id := "b1", text := "y" } 6 "c" true true).1
    sampleBlock (by decide)).1

/-- C2: the client merge algorithm (`mergeServerBlocks` and
`mergeServerTomorrowTasks`) treats each server record as follows: with no
local counterpart it is inserted as `synced` with `serverVersion :=
server.version`; with a pending local counterpart and `server.version >
(local.serverVersion ?? 0)` the local record is kept (its edit intact) but
marked `conflict` with `serverVersion` updated to `server.version`; with a
pending local counterpart and `server.version <= (local.serverVersion ?? 0)`
the local record is kept pending and unchanged; with a synced local
counterpart the server copy replaces it; and every local record whose id is
not in the server batch is preserved unchanged in the result. -/
theorem C2_merge_algorithm (server : List SyncBlock) (locals : List LocalBlock)
    (serverT : List SyncTomorrowTask) (localsT : List LocalTomorrowTask) (now : Nat) :
    (mergeServerBlocks server locals now
      = server.map (mergeOneBlock locals now)
        ++ locals.filter (fun l => !(server.any (fun s => s.id == l.id))))
    ∧ (∀ s, locals.find? (fun b => b.id == s.id) = none →
        mergeOneBlock locals now s = serverToLocalBlock s now)
    ∧ (∀ s l, locals.find? (fun b => b.id == s.id) = some l →
        l.syncStatus = .pending → l.serverVersion.getD 0 < s.version →
        mergeOneBlock locals now s
          = { l with syncStatus := .conflict, serverVersion := some s.version })
    ∧ (∀ s l, locals.find? (fun b => b.id == s.id) = some l →
        l.syncStatus = .pending → s.version ≤ l.serverVersion.getD 0 →
        mergeOneBlock locals now s = l)
    ∧ (∀ s l, locals.find? (fun b => b.id == s.id) = some l →
        l.syncStatus = .synced →
        mergeOneBlock locals now s = serverToLocalBlock s now)
    ∧ (∀ l ∈ locals, (∀ s ∈ server, s.id ≠ l.id) →
        l ∈ mergeServerBlocks server locals now)
    ∧ (∀ s, localsT.find? (fun t => t.id == s.id) = none →
        mergeOneTask localsT now s = serverToLocalTask s now)
    ∧ (∀ s l, localsT.find? (fun t => t.id == s.id) = some l →
        l.syncStatus = .pending → l.serverVersion.getD 0 < s.version →
        mergeOneTask localsT now s
          = { l with syncStatus := .conflict, serverVersion := some s.version })
    ∧ (∀ s l, localsT.find? (fun t => t.id == s.id) = some l →
        l.syncStatus = .pending → s.version ≤ l.serverVersion.getD 0 →
        mergeOneTask localsT now s = l)
    ∧ (∀ s l, localsT.find? (fun t => t.id == s.id) = some l →
        l.syncStatus = .synced →
        mergeOneTask localsT now s = serverToLocalTask s now)
    ∧ (∀ l ∈ localsT, (∀ s ∈ serverT, s.id ≠ l.id) →
        l ∈ mergeServerTomorrowTasks serverT localsT now) := by
  refine ⟨rfl, ?_, ?_, ?_, ?_, ?_, ?_, ?_, ?_, ?_, ?_⟩
  · intro s h
    unfold mergeOneBlock
    rw [h]
  · intro s l h hp hv
    unfold mergeOneBlock
    rw [h]
    simp [hp, hv]
  · intro s l h hp hv
    unfold mergeOneBlock
    rw [h]
    simp [hp, not_lt.mpr hv]
  · intro s l h hs
    unfold mergeOneBlock
    rw [h]
    simp [hs]
  · intro l hl hids
    refine List.mem_append_right _ ?_
    rw [List.mem_filter]
    refine ⟨hl, ?_⟩
    simp only [Bool.not_eq_true', List.any_eq_false]
    intro s hs
    simpa using hids s hs
  · intro s h
    unfold mergeOneTask
    rw [h]
  · intro s l h hp hv
    unfold mergeOneTask
    rw [h]
    simp [hp, hv]
  · intro s l h hp hv
    unfold mergeOneTask
    rw [h]
    simp [hp, not_lt.mpr hv]
  · intro s l h hs
    unfold mergeOneTask
    rw [h]
    simp [hs]
  · intro l hl hids
    refine List.mem_append_right _ ?_
    rw [List.mem_filter]
    refine ⟨hl, ?_⟩
    simp only [Bool.not_eq_true', List.any_eq_false]
    intro s hs
    simpa using hids s hs

/-- Witness for C2: a server block with no local counterpart is inserted as
the synced server copy. -/
theorem C2_merge_algorithm_witness :
    mergeOneBlock [] 7
      { id := "s1", text := "t", createdAt := 0, calendarEventId := none,
        position := 0, version := 3, updatedAt := 0, deletedAt := none,
        clientId := some "a" }
    = serverToLocalBlock
      { id := "s1", text := "t", createdAt := 0, calendarEventId := none,
        position := 0, version := 3, updatedAt := 0, deletedAt := none,
        clientId := some "a" } 7 :=
  (C2_merge_algorithm [] [] [] [] 7).2.1
    { id := "s1", text := "t", createdAt := 0, calendarEventId := none,
      position := 0, version := 3, updatedAt := 0, deletedAt := none,
      clientId := some "a" } rfl

/-- C9: `getBlocks` returns exactly the non-tombstoned blocks, sorted by
`createdAt` ascending then `position` ascending; `getTomorrowTasks` returns
exactly the non-tombstoned tasks sorted by `position` ascending. A record
with a non-null `deletedAt` never appears in either result (the membership
equivalences force `deletedAt = none`). -/
theorem C9_accessor_views (blocks : List LocalBlock) (tasks : List LocalTomorrowTask) :
    List.Perm (getBlocks blocks) (blocks.filter (fun b => b.deletedAt.isNone))
    ∧ List.Sorted blockLe (getBlocks blocks)
    ∧ (∀ b, b ∈ getBlocks blocks ↔ b ∈ blocks ∧ b.deletedAt = none)
    ∧ List.Perm (getTomorrowTasks tasks) (tasks.filter (fun t => t.deletedAt.isNone))
    ∧ List.Sorted taskLe (getTomorrowTasks tasks)
    ∧ (∀ t, t ∈ getTomorrowTasks tasks ↔ t ∈ tasks ∧ t.deletedAt = none) := by
  refine ⟨List.perm_insertionSort _ _, List.sorted_insertionSort _ _, ?_,
    List.perm_insertionSort _ _, List.sorted_insertionSort _ _, ?_⟩
  · intro b
    rw [getBlocks, (List.perm_insertionSort _ _).mem_iff, List.mem_filter]
    simp
  · intro t
    rw [getTomorrowTasks, (List.perm_insertionSort _ _).mem_iff, List.mem_filter]
    simp

/-- Witness for C9: a live block is listed by `getBlocks`. -/
theorem C9_accessor_views_witness :
    ({ id := "b1", text := "x", createdAt := 4, calendarEventId := none,
       position := 0, version := 1, updatedAt := 4, deletedAt := none,
       clientId := some "c1", syncStatus := .pending, serverVersion := none,
       lastSyncedAt := none } : LocalBlock)
    ∈ getBlocks
      [{ id := "b1", text := "x", createdAt := 4, calendarEventId := none,
         position := 0, version := 1, updatedAt := 4, deletedAt := none,
         clientId := some "c1", syncStatus := .pending, serverVersion := none,
         lastSyncedAt := none }] :=
  ((C9_accessor_views
      [{ id := "b1", text := "x", createdAt := 4, calendarEventId := none,
         position := 0, version := 1, updatedAt := 4, deletedAt := none,
         clientId := some "c1", syncStatus := .pending, serverVersion := none,
         lastSyncedAt := none }] []).2.2.1 _).mpr ⟨by simp, rfl⟩

/-- C10: `emit` invokes every currently subscribed handler with the emitted
event, in subscription order; an exception thrown by one handler is caught
by the engine, so it neither prevents the remaining handlers from being
invoked nor changes the storage outcome of the emitting operation. -/
theorem C10_emit_fanout (handlers : List Handler) (ev : EvTag) :
    (emit handlers ev).length = handlers.length
    ∧ emit handlers ev = handlers.map (fun h => h ev)
    ∧ (∀ (pre post : List Handler) (h : Handler) (e : String), h ev = .error e →
        emit (pre ++ h :: post) ev = emit pre ev ++ Except.error e :: emit post ev)
    ∧ (∀ (blocks : List LocalBlock) (id : String) (now : Nat),
        (deleteBlockOp handlers blocks id now).1 = deleteLocalBlock id now blocks) := by
  have hmap : ∀ hs : List Handler, emit hs ev = hs.map (fun h => h ev) := by
    intro hs
    induction hs with
    | nil => rfl
    | cons h rest ih => simp [emit, ih]
  refine ⟨by rw [hmap]; simp, hmap handlers, ?_, fun _ _ _ => rfl⟩
  intro pre post h e he
  induction pre with
  | nil => simp [emit, he]
  | cons p ps ih => simp [emit, ih]

/-- Witness for C10: a throwing first handler does not cut off the second. -/
theorem C10_emit_fanout_witness :
    emit ([] ++ (fun _ => Except.error "boom") :: [fun _ => Except.ok ()])
        EvTag.blocksUpdated
      = emit [] EvTag.blocksUpdated
        ++ Except.error "boom" :: emit [fun _ => Except.ok ()] EvTag.blocksUpdated :=
  (C10_emit_fanout [] EvTag.blocksUpdated).2.2.1 [] [fun _ => Except.ok ()]
    (fun _ => Except.error "boom") "boom" rfl

/-- C7 (divergence): the engine never includes settings in a push request.
`pushPendingChanges` calls `api.pushChanges` without the settings argument,
so any push payload it sends has no settings field, and when no blocks or
tasks are pending no push request is sent at all — the settings saved by
`SaveSettings` never reach the server on the next `Sync()`. -/
theorem C7_settings_never_pushed (blocks : List LocalBlock)
    (tasks : List LocalTomorrowTask) (clientId : String) :
    (∀ p, pushPendingRequest blocks tasks clientId = some p → p.settings = none)
    ∧ ((getPendingBlocks blocks).isEmpty = true →
        (getPendingTomorrowTasks tasks).isEmpty = true →
        pushPendingRequest blocks tasks clientId = none) := by
  constructor
  · intro p hp
    by_cases h : ((getPendingBlocks blocks).isEmpty
        && (getPendingTomorrowTasks tasks).isEmpty) = true
    · exfalso
      simp [pushPendingRequest, h] at hp
    · have hF : ((getPendingBlocks blocks).isEmpty
          && (getPendingTomorrowTasks tasks).isEmpty) = false := by
        simpa using h
      simp only [pushPendingRequest, hF, Bool.false_eq_true, if_false,
        Option.some.injEq] at hp
      subst hp
      rfl
  · intro h1 h2
    unfold pushPendingRequest
    simp [h1, h2]

/-- Witness for C7: with nothing pending, no push request is sent. -/
theorem C7_settings_never_pushed_witness :
    pushPendingRequest [] [] "c1" = none :=
  (C7_settings_never_pushed [] [] "c1").2 rfl rfl

/-- C6: when the push or the pull step of a `Sync()` run throws, the engine
ends the run with status `error` and emits the `error` event, and every
local record that was `pending` before the run and was not reported applied
by the server is still present unchanged (same text, version, deletedAt,
still pending) afterwards. -/
theorem C6_failed_sync_preserves_pending (st : ClientState) (status0 : SyncStatus)
    (pushResult : Except Unit PushResponse) (pullResult : Except Unit PullResponse)
    (now : Nat)
    (hfail :
      ((getPendingBlocks st.blocks).isEmpty
          && (getPendingTomorrowTasks st.tasks).isEmpty) = false
        ∧ pushResult = .error ()
      ∨ (((getPendingBlocks st.blocks).isEmpty
            && (getPendingTomorrowTasks st.tasks).isEmpty) = true
          ∨ (∃ r, pushResult = .ok r))
        ∧ pullResult = .error ()) :
    (syncRun st true true status0 pushResult pullResult now).2.1 = .error
    ∧ EvTag.errorEv ∈ (syncRun st true true status0 pushResult pullResult now).2.2
    ∧ (∀ b ∈ st.blocks, b.syncStatus = .pending →
        b.id ∉ appliedBlocksOf pushResult →
        b ∈ (syncRun st true true status0 pushResult pullResult now).1.blocks)
    ∧ (∀ t ∈ st.tasks, t.syncStatus = .pending →
        t.id ∉ appliedTasksOf pushResult →
        t ∈ (syncRun st true true status0 pushResult pullResult now).1.tasks) := by
  rcases hfail with ⟨hpend, hpush⟩ | ⟨hok, hpull⟩
  · subst hpush
    refine ⟨?_, ?_, ?_, ?_⟩
    · simp [syncRun, hpend]
    · simp [syncRun, hpend]
    · intro b hb _ _
      simpa [syncRun, hpend] using hb
    · intro t ht _ _
      simpa [syncRun, hpend] using ht
  · rcases hok with hpendT | ⟨r, hr⟩
    · subst hpull
      refine ⟨?_, ?_, ?_, ?_⟩
      · simp [syncRun, hpendT]
      · simp [syncRun, hpendT]
      · intro b hb _ _
        simpa [syncRun, hpendT] using hb
      · intro t ht _ _
        simpa [syncRun, hpendT] using ht
    · subst hr
      subst hpull
      by_cases hpend : ((getPendingBlocks st.blocks).isEmpty
          && (getPendingTomorrowTasks st.tasks).isEmpty) = true
      · refine ⟨by simp [syncRun, hpend], by simp [syncRun, hpend], ?_, ?_⟩
        · intro b hb _ _
          simpa [syncRun, hpend] using hb
        · intro t ht _ _
          simpa [syncRun, hpend] using ht
      · have hpend' : ((getPendingBlocks st.blocks).isEmpty
            && (getPendingTomorrowTasks st.tasks).isEmpty) = false := by
          simpa using hpend
        refine ⟨by simp [syncRun, hpend'], by simp [syncRun, hpend'], ?_, ?_⟩
        · intro b hb hbp hbid
          have hbid' : b.id ∉ r.appliedBlocks := by
            simpa [appliedBlocksOf] using hbid
          have hmem : b ∈ (if r.appliedBlocks.isEmpty then st.blocks
              else markBlocksSynced r.appliedBlocks now st.blocks) := by
            by_cases ha : r.appliedBlocks.isEmpty
            · simpa [ha] using hb
            · simpa [ha] using
                mem_markBlocksSynced_of_not_applied r.appliedBlocks now hb hbid'
          simpa [syncRun, hpend'] using hmem
        · intro t ht htp htid
          have htid' : t.id ∉ r.appliedTomorrowTasks := by
            simpa [appliedTasksOf] using htid
          have hmem : t ∈ (if r.appliedTomorrowTasks.isEmpty then st.tasks
              else markTomorrowTasksSynced r.appliedTomorrowTasks now st.tasks) := by
            by_cases ha : r.appliedTomorrowTasks.isEmpty
            · simpa [ha] using ht
            · simpa [ha] using
                mem_markTomorrowTasksSynced_of_not_applied r.appliedTomorrowTasks now ht htid'
          simpa [syncRun, hpend'] using hmem

/-- Witness for C6: a pending block survives a run whose push throws. -/
theorem C6_failed_sync_preserves_pending_witness :
    sampleLive ∈ (syncRun
      { blocks := [sampleLive], tasks := [], settings := none, lastSyncedAt := none }
      true true .idle (.error ()) (.ok emptyPull) 30).1.blocks :=
  (C6_failed_sync_preserves_pending
    { blocks := [sampleLive], tasks := [], settings := none, lastSyncedAt := none }
    .idle (.error ()) (.ok emptyPull) 30
    (Or.inl ⟨by decide, rfl⟩)).2.2.1 sampleLive (by simp) (by decide) (by decide)

/-- Counterexample to C8: from an idle signed-in online engine, a trigger
fires `sync()`; while that run is in flight a second trigger fires `sync()`
again and the entry guards (which consult only isLoggedIn and isOnline — the
engine has no in-flight gate) let it start, leaving two concurrent runs. -/
theorem C8_cex :
    (syncEntry (syncEntry
      { loggedIn := true, online := true, status := .idle, inFlight := 0 })).inFlight = 2
    ∧ ¬((syncEntry (syncEntry
      { loggedIn := true, online := true, status := .idle, inFlight := 0 })).inFlight ≤ 1)
    := by decide

/-- C8 amended: the engine does not serialize sync runs — any trigger
arriving while the client is signed in and online starts a new run
regardless of how many are already in flight (the debounce timer only
collapses rapid edit triggers before the run starts). -/
theorem C8_no_sync_gate_amended (e : EngineCtl) (hl : e.loggedIn = true)
    (ho : e.online = true) :
    (syncEntry e).inFlight = e.inFlight + 1 ∧ (syncEntry e).status = .syncing := by
  simp [syncEntry, hl, ho]

/-- Witness for the amended C8: a trigger during one in-flight run makes two. -/
theorem C8_no_sync_gate_amended_witness :
    (syncEntry
      { loggedIn := true, online := true, status := .syncing, inFlight := 1 }).inFlight
      = 1 + 1 :=
  (C8_no_sync_gate_amended
    { loggedIn := true, online := true, status := .syncing, inFlight := 1 }
    rfl rfl).1

/-- C1: for a pushed record whose id already exists for the same user, the
spec-modelled server reports a conflict iff `existing.version >=
incoming.version` and `existing.clientId != incoming.clientId`; on conflict
the store is the old store with one appended row — the existing row is left
unchanged — whose id is `incoming.id ++ "-conflict-"` plus a suffix, whose
text is `"[Conflict] "` prefixed to the incoming text and whose version is
1, and the response conflicts list the incoming id with its local and
server versions. -/
theorem C1_push_conflict_rule (store : List ServerBlock) (userId : String)
    (nowMs : Nat) (incoming : SyncBlock) (existing : ServerBlock)
    (hfind : store.find? (fun r => r.id == incoming.id) = some existing)
    (howner : existing.userId = userId) :
    ((serverPushBlocks userId nowMs store [incoming]).conflicts ≠ []
      ↔ (incoming.version ≤ existing.version ∧ existing.clientId ≠ incoming.clientId))
    ∧ (incoming.version ≤ existing.version → existing.clientId ≠ incoming.clientId →
        (serverPushBlocks userId nowMs store [incoming]).store
          = store ++ [conflictRow userId nowMs incoming]
        ∧ existing ∈ (serverPushBlocks userId nowMs store [incoming]).store
        ∧ (conflictRow userId nowMs incoming).version = 1
        ∧ (conflictRow userId nowMs incoming).text = "[Conflict] " ++ incoming.text
        ∧ (∃ suffix, (conflictRow userId nowMs incoming).id
            = (incoming.id ++ "-conflict-") ++ suffix)
        ∧ (serverPushBlocks userId nowMs store [incoming]).conflicts
          = [{ kind := .block, id := incoming.id, localVersion := incoming.version,
               serverVersion := existing.version }]) := by
  constructor
  · by_cases hcond : incoming.version ≤ existing.version
        ∧ existing.clientId ≠ incoming.clientId
    · exact ⟨fun _ => hcond, fun _ => by
        simp [serverPushBlocks, pushOneBlock, hfind, howner, hcond]⟩
    · constructor
      · intro hne
        exfalso
        apply hne
        simp [serverPushBlocks, pushOneBlock, hfind, howner, hcond]
      · intro hc
        exact absurd hc hcond
  · intro h1 h2
    have hcond : incoming.version ≤ existing.version
        ∧ existing.clientId ≠ incoming.clientId := ⟨h1, h2⟩
    have hstore : (serverPushBlocks userId nowMs store [incoming]).store
        = store ++ [conflictRow userId nowMs incoming] := by
      simp [serverPushBlocks, pushOneBlock, hfind, howner, hcond]
    refine ⟨hstore, ?_, rfl, rfl, ⟨toString nowMs, rfl⟩, ?_⟩
    · rw [hstore]
      exact List.mem_append_left _ (List.mem_of_find?_eq_some hfind)
    · simp [serverPushBlocks, pushOneBlock, hfind, howner, hcond]

/-- Witness for C1: pushing version 3 from client B over version 4 written
by client A reports a conflict for b1 with both versions. -/
theorem C1_push_conflict_rule_witness :
    (serverPushBlocks "u1" 99 [c1Existing] [c1Incoming]).conflicts
      = [{ kind := .block, id := "b1", localVersion := 3, serverVersion := 4 }] :=
  ((C1_push_conflict_rule [c1Existing] "u1" 99 c1Incoming c1Existing
    (by decide) rfl).2 (by decide) (by decide)).2.2.2.2.2

/-- Counterexample to C4: running the fresh-write scenario (empty client,
`SaveBlock(\x7bid:"b1", text:"hello"\x7d)`, one successful sync), the server
row has version 1, not 2, and the local record has `serverVersion = some 1`,
not 2: `markBlocksSynced` copies the local version (1) into `serverVersion`,
and the spec-modelled insert path gives a new row version 1. -/
theorem C4_cex :
    c4Push.store.map (fun r => r.version) = [1]
    ∧ c4Push.store.map (fun r => r.version) ≠ [2]
    ∧ c4Final.map (fun b => b.serverVersion) = [some 1]
    ∧ c4Final.map (fun b => b.serverVersion) ≠ [some 2] := by decide

/-- C4 amended: after the fresh-write scenario the server holds exactly one
block `\x7bid:"b1", text:"hello", version:1, clientId:"c1"\x7d`, the push
response applied b1 with no conflicts, and the local record is `synced` with
`serverVersion = some 1`. -/
theorem C4_fresh_write_amended :
    c4Push.store
      = [{ id := "b1", userId := "u1", text := "hello", createdAt := 10,
           calendarEventId := none, position := 0, version := 1, updatedAt := 20,
           deletedAt := none, clientId := some "c1" }]
    ∧ c4Push.appliedBlocks = ["b1"]
    ∧ c4Push.conflicts = []
    ∧ c4Final.length = 1
    ∧ (∀ b ∈ c4Final, b.id = "b1" ∧ b.text = "hello" ∧ b.syncStatus = .synced
        ∧ b.serverVersion = some 1 ∧ b.version = 1) := by decide

end Znote
